import Mathlib

/-!
Verification development for the job-processing core of the
Quantization_plateforme backend (Rust).  The definitions below are a
shallow embedding of the relevant source functions:

* `src/backend/src/domain/jobs.rs` — the `Job` record, `JobStatus`,
  `QuantizationMethod`, `Job::calculate_reduction`;
* `src/backend/src/infrastructure/database/jobs.rs` — the
  `JobsRepository` operations `update_status`, `complete_job`,
  `fail_job` (database rows become a `List Job`, the SQL UPDATE becomes
  a pure map over that list, `Utc::now()` becomes an explicit `now`
  tick);
* `src/backend/src/models/job.rs` — `Job::compression_ratio`;
* `src/backend/src/services/queue.rs` — the Redis priority queue
  (`LPUSH`/`RPOP` lists become Lean lists, newest element first);
* `src/backend/src/api/routes/jobs.rs` and
  `src/backend/src/infrastructure/database/subscriptions.rs` — the
  submission route and the credit operations;
* `src/backend/src/workers/quantization_worker.rs` — the worker pool
  (the Tokio semaphore becomes a `holding` set bounded by
  `max_concurrent_jobs`) and the stuck-job monitor;
* `src/backend/src/core/job_service.rs` — `process_next_job` and the
  `Clone` implementation of `JobService`.

Floating-point arithmetic (`f64`/`f32` in the source) is modelled by
exact rational arithmetic (`Rat`).  Every concrete input used in a
theorem below is chosen so that the source's floating-point evaluation
is exact at that input (all intermediate values are dyadic rationals
with few significand bits), so the rational model and the compiled code
agree on those inputs.
-/

namespace QuantPlatform

/-- Job status enum, from `domain/jobs.rs` (`JobStatus`): Queued,
Processing, Completed, Failed, Cancelled. -/
inductive JobStatus
  | queued
  | processing
  | completed
  | failed
  | cancelled
deriving DecidableEq

/-- Quantization method enum, from `domain/jobs.rs`
(`QuantizationMethod`): Int8, Int4, Gptq, Awq, Dynamic. -/
inductive QuantizationMethod
  | int8
  | int4
  | gptq
  | awq
  | dynamic
deriving DecidableEq

/-- A job row, from `domain/jobs.rs` (`struct Job`) restricted to the
columns read and written by `JobsRepository` in
`infrastructure/database/jobs.rs`.  Timestamps are abstract `Nat`
ticks; `reduction_percent` (an `f32` in the source) is an exact `Rat`. -/
structure Job where
  id : Nat
  userId : Nat
  modelName : String
  originalSizeBytes : Int
  quantizedSizeBytes : Option Int
  quantizationMethod : QuantizationMethod
  status : JobStatus
  errorMessage : Option String
  reductionPercent : Option Rat
  downloadToken : String
  downloadUrl : Option String
  createdAt : Nat
  updatedAt : Nat
deriving DecidableEq

/-- Errors of `JobsRepository` (`enum JobError` in
`infrastructure/database/jobs.rs`); only the variants reachable from
the embedded operations are modelled. -/
inductive JobError
  | notFound
  | alreadyCompleted
deriving DecidableEq

deriving instance DecidableEq for Except

/-- Look a job up by id, embedding `JobsRepository::get_by_id`
(`SELECT ... WHERE id = $1` over the jobs table modelled as a list). -/
def findJob : List Job → Nat → Option Job
  | [], _ => none
  | j :: rest, i => if j.id = i then some j else findJob rest i

/-- Write a job row back, embedding `UPDATE jobs ... WHERE id = $6`:
every row whose id matches is replaced. -/
def setJob : List Job → Job → List Job
  | [], _ => []
  | k :: rest, j => (if k.id = j.id then j else k) :: setJob rest j

/-- Embedding of `JobsRepository::update_status`
(`infrastructure/database/jobs.rs`, lines 232-262): fetch the row,
reject when the current status is Completed or Failed
(`JobError::AlreadyCompleted`), otherwise set the new status and
`updated_at`.  The result is paired with the resulting table so that
the guard's "no row written" behaviour is explicit. -/
def updateStatusRun (store : List Job) (jobId : Nat) (newStatus : JobStatus)
    (now : Nat) : Except JobError Job × List Job :=
  match findJob store jobId with
  | none => (.error .notFound, store)
  | some j =>
    if j.status = .completed ∨ j.status = .failed then
      (.error .alreadyCompleted, store)
    else
      let updated : Job := { j with status := newStatus, updatedAt := now }
      (.ok updated, setJob store updated)

/-- Embedding of `JobsRepository::complete_job`
(`infrastructure/database/jobs.rs`, lines 264-310): fetch, reject
Completed/Failed, compute
`reduction_percent = (original - quantized) / original * 100` when
`original_size_bytes > 0` and `0.0` otherwise, then write
quantized size, reduction, download url, status Completed and
`updated_at`.  The source computes the quotient in `f64` and casts to
`f32`; here the value is exact. -/
def completeJobRun (store : List Job) (jobId : Nat) (quantizedSizeBytes : Int)
    (downloadUrl : String) (now : Nat) : Except JobError Job × List Job :=
  match findJob store jobId with
  | none => (.error .notFound, store)
  | some j =>
    if j.status = .completed ∨ j.status = .failed then
      (.error .alreadyCompleted, store)
    else
      let reduction : Rat :=
        if 0 < j.originalSizeBytes then
          ((j.originalSizeBytes : Rat) - (quantizedSizeBytes : Rat))
            / (j.originalSizeBytes : Rat) * 100
        else 0
      let updated : Job :=
        { j with
          quantizedSizeBytes := some quantizedSizeBytes
          reductionPercent := some reduction
          downloadUrl := some downloadUrl
          status := .completed
          updatedAt := now }
      (.ok updated, setJob store updated)

/-- Embedding of `JobsRepository::fail_job`
(`infrastructure/database/jobs.rs`, lines 313-346): fetch, reject
Completed/Failed, otherwise write the error message, status Failed and
`updated_at`. -/
def failJobRun (store : List Job) (jobId : Nat) (errorMessage : String)
    (now : Nat) : Except JobError Job × List Job :=
  match findJob store jobId with
  | none => (.error .notFound, store)
  | some j =>
    if j.status = .completed ∨ j.status = .failed then
      (.error .alreadyCompleted, store)
    else
      let updated : Job :=
        { j with
          errorMessage := some errorMessage
          status := .failed
          updatedAt := now }
      (.ok updated, setJob store updated)

/-- Embedding of `Job::calculate_reduction` (`domain/jobs.rs`, lines
141-153): `0.0` when the quantized size is absent or the original size
is not positive, otherwise `(original - quantized) / original * 100`. -/
def Job.calculateReduction (j : Job) : Rat :=
  match j.quantizedSizeBytes with
  | some q =>
    if 0 < j.originalSizeBytes then
      ((j.originalSizeBytes : Rat) - (q : Rat)) / (j.originalSizeBytes : Rat) * 100
    else 0
  | none => 0

/-- Embedding of `Job::compression_ratio` (`models/job.rs`, lines
204-215), as a function of the two fields it reads
(`original_size`, `quantized_size`): `quantized / original` when both
sizes are present and the original is positive, `None` otherwise. -/
def compressionRatioOf (original_size quantized_size : Option Int) : Option Rat :=
  match original_size, quantized_size with
  | some o, some q => if 0 < o then some ((q : Rat) / (o : Rat)) else none
  | _, _ => none

lemma findJob_some_id {store : List Job} {i : Nat} {j : Job}
    (h : findJob store i = some j) : j.id = i := by
  induction store with
  | nil => simp [findJob] at h
  | cons k rest ih =>
    by_cases hk : k.id = i
    · simp [findJob, hk] at h
      subst h
      exact hk
    · simp [findJob, hk] at h
      exact ih h

lemma findJob_setJob {store : List Job} {i : Nat} {j k : Job}
    (h : findJob store i = some j) (hk : k.id = i) :
    findJob (setJob store k) i = some k := by
  induction store with
  | nil => simp [findJob] at h
  | cons a rest ih =>
    by_cases ha : a.id = i
    · have : a.id = k.id := by rw [ha, hk]
      simp [findJob, setJob, this, hk]
    · have hne : a.id ≠ k.id := by rw [hk]; exact ha
      simp [findJob, ha] at h
      simp [findJob, setJob, hne, ha]
      exact ih h

/-- Example completed job used to instantiate guard theorems. -/
def jobCompletedEx : Job :=
  { id := 1, userId := 2, modelName := "m", originalSizeBytes := 1000
    quantizedSizeBytes := some 250, quantizationMethod := .int8
    status := .completed, errorMessage := none, reductionPercent := some 75
    downloadToken := "t", downloadUrl := some "u", createdAt := 0, updatedAt := 1 }

/-- Example cancelled job: the repository guard does not protect it. -/
def jobCancelledEx : Job :=
  { id := 1, userId := 2, modelName := "m", originalSizeBytes := 1000
    quantizedSizeBytes := none, quantizationMethod := .int8
    status := .cancelled, errorMessage := none, reductionPercent := none
    downloadToken := "t", downloadUrl := none, createdAt := 0, updatedAt := 1 }

/-- The row `complete_job` produces from `jobCancelledEx` with quantized
size 250 and url "u" at tick 5: the cancelled job is completed. -/
def jobCancelledDone : Job :=
  { jobCancelledEx with
    quantizedSizeBytes := some 250, reductionPercent := some 75
    downloadUrl := some "u", status := .completed, updatedAt := 5 }

/-- Claim C1 (amended): for every job whose status is Completed or
Failed, each transition operation of `JobsRepository` (`update_status`,
`complete_job`, `fail_job`) fails with the `AlreadyCompleted` guard
error and leaves the jobs table — hence every field of the job —
unchanged; in particular a second `complete` on a job just completed
from Processing fails and changes nothing.  (The original claim also
covered Cancelled; the guard in the source checks only Completed and
Failed, see `c1_counterexample`.) -/
theorem c1_terminal_guard
    (store : List Job) (jobId : Nat) (job : Job) (newStatus : JobStatus)
    (q : Int) (url msg : String) (now now2 : Nat)
    (hfind : findJob store jobId = some job) :
    ((job.status = .completed ∨ job.status = .failed) →
      updateStatusRun store jobId newStatus now = (.error .alreadyCompleted, store) ∧
      completeJobRun store jobId q url now = (.error .alreadyCompleted, store) ∧
      failJobRun store jobId msg now = (.error .alreadyCompleted, store)) ∧
    (job.status = .processing →
      ∃ upd : Job,
        completeJobRun store jobId q url now = (.ok upd, setJob store upd) ∧
        upd.status = .completed ∧
        completeJobRun (setJob store upd) jobId q url now2 =
          (.error .alreadyCompleted, setJob store upd)) := by
  have hid : job.id = jobId := findJob_some_id hfind
  constructor
  · intro hterm
    refine ⟨?_, ?_, ?_⟩
    · simp only [updateStatusRun, hfind]
      rw [if_pos hterm]
    · simp only [completeJobRun, hfind]
      rw [if_pos hterm]
    · simp only [failJobRun, hfind]
      rw [if_pos hterm]
  · intro hproc
    have hrej : ¬ (job.status = .completed ∨ job.status = .failed) := by
      rw [hproc]; decide
    refine ⟨{ job with
        quantizedSizeBytes := some q
        reductionPercent := some (if 0 < job.originalSizeBytes then
          ((job.originalSizeBytes : Rat) - (q : Rat))
            / (job.originalSizeBytes : Rat) * 100 else 0)
        downloadUrl := some url, status := .completed, updatedAt := now },
      ?_, rfl, ?_⟩
    · simp only [completeJobRun, hfind]
      rw [if_neg hrej]
    · have hfind2 := findJob_setJob (k := { job with
        quantizedSizeBytes := some q
        reductionPercent := some (if 0 < job.originalSizeBytes then
          ((job.originalSizeBytes : Rat) - (q : Rat))
            / (job.originalSizeBytes : Rat) * 100 else 0)
        downloadUrl := some url, status := .completed, updatedAt := now })
        hfind hid
      simp [completeJobRun, hfind2]

/-- Witness for C1: on a one-row table holding a Completed job, each of
the three transitions is rejected with `AlreadyCompleted` and the table
is unchanged. -/
theorem c1_terminal_guard_witness :
    updateStatusRun [jobCompletedEx] 1 .processing 5 =
      (.error .alreadyCompleted, [jobCompletedEx]) ∧
    completeJobRun [jobCompletedEx] 1 250 "u" 5 =
      (.error .alreadyCompleted, [jobCompletedEx]) ∧
    failJobRun [jobCompletedEx] 1 "boom" 5 =
      (.error .alreadyCompleted, [jobCompletedEx]) :=
  (c1_terminal_guard [jobCompletedEx] 1 jobCompletedEx .processing 250 "u" "boom"
    5 6 (by decide)).1 (Or.inl rfl)

/-- Counterexample for C1 as stated: a Cancelled job is terminal in the
claim, yet `complete_job` on it succeeds (the guard checks only
Completed and Failed) and rewrites the row to Completed. -/
theorem c1_counterexample :
    jobCancelledEx.status = .cancelled ∧
    completeJobRun [jobCancelledEx] 1 250 "u" 5 =
      (.ok jobCancelledDone, [jobCancelledDone]) ∧
    jobCancelledDone.status = .completed := by
  refine ⟨rfl, ?_, rfl⟩
  simp [completeJobRun, findJob, setJob, jobCancelledEx, jobCancelledDone]
  norm_num

/-- Job used for Scenario A: original size 1,000,000,000, Processing. -/
def scenarioAJob : Job :=
  { id := 1, userId := 2, modelName := "m", originalSizeBytes := 1000000000
    quantizedSizeBytes := none, quantizationMethod := .int8
    status := .processing, errorMessage := none, reductionPercent := none
    downloadToken := "t", downloadUrl := none, createdAt := 0, updatedAt := 1 }

/-- Claim C5 (amended): when `complete_job` succeeds on a Processing
job, the stored reduction percent equals
`(original - quantized) / original * 100` exactly as computed — with no
clamping to [0,100] and no rounding to one decimal (`0` when the
original size is not positive); for originalSize=1,000,000,000 and
quantizedSize=250,000,000 the job ends Completed with reduction 75.0. -/
theorem c5_reduction_formula :
    (∀ (store : List Job) (jobId : Nat) (job : Job) (q : Int) (url : String)
        (now : Nat), findJob store jobId = some job → job.status = .processing →
      ∃ upd : Job,
        completeJobRun store jobId q url now = (.ok upd, setJob store upd) ∧
        upd.status = .completed ∧
        upd.reductionPercent = some (if 0 < job.originalSizeBytes then
          ((job.originalSizeBytes : Rat) - (q : Rat))
            / (job.originalSizeBytes : Rat) * 100 else 0)) ∧
    ((completeJobRun [scenarioAJob] 1 250000000 "u" 5).1 =
      .ok { scenarioAJob with
        quantizedSizeBytes := some 250000000, reductionPercent := some 75
        downloadUrl := some "u", status := .completed, updatedAt := 5 }) := by
  constructor
  · intro store jobId job q url now hfind hproc
    have hrej : ¬ (job.status = .completed ∨ job.status = .failed) := by
      rw [hproc]; decide
    refine ⟨{ job with
        quantizedSizeBytes := some q
        reductionPercent := some (if 0 < job.originalSizeBytes then
          ((job.originalSizeBytes : Rat) - (q : Rat))
            / (job.originalSizeBytes : Rat) * 100 else 0)
        downloadUrl := some url, status := .completed, updatedAt := now },
      ?_, rfl, rfl⟩
    simp only [completeJobRun, hfind]
    rw [if_neg hrej]
  · simp [completeJobRun, findJob, setJob, scenarioAJob]
    norm_num

/-- Witness for C5: the general conjunct applied to Scenario A's
concrete table yields reduction exactly 75. -/
theorem c5_reduction_formula_witness :
    ∃ upd : Job,
      completeJobRun [scenarioAJob] 1 250000000 "u" 5 =
        (.ok upd, setJob [scenarioAJob] upd) ∧
      upd.status = .completed ∧
      upd.reductionPercent = some (if 0 < scenarioAJob.originalSizeBytes then
        ((scenarioAJob.originalSizeBytes : Rat) - ((250000000 : Int) : Rat))
          / (scenarioAJob.originalSizeBytes : Rat) * 100 else 0) :=
  c5_reduction_formula.1 [scenarioAJob] 1 scenarioAJob 250000000 "u" 5
    (by decide) rfl

/-- Processing job with original size 1, used to refute the clamp. -/
def smallJob : Job :=
  { id := 1, userId := 2, modelName := "m", originalSizeBytes := 1
    quantizedSizeBytes := none, quantizationMethod := .int8
    status := .processing, errorMessage := none, reductionPercent := none
    downloadToken := "t", downloadUrl := none, createdAt := 0, updatedAt := 1 }

/-- Counterexample for C5 as stated: completing a Processing job whose
quantized size (2) exceeds its original size (1) stores reduction
-100, which lies outside [0,100] — the source applies no clamping.
(The value -100 is exactly representable, so the f64/f32 computation of
the source also stores -100.) -/
theorem c5_counterexample :
    smallJob.status = .processing ∧
    (completeJobRun [smallJob] 1 2 "u" 5).1 =
      .ok { smallJob with
        quantizedSizeBytes := some 2, reductionPercent := some (-100)
        downloadUrl := some "u", status := .completed, updatedAt := 5 } ∧
    ¬ (0 ≤ (-100 : Rat)) := by
  refine ⟨rfl, ?_, by norm_num⟩
  simp [completeJobRun, findJob, setJob, smallJob]
  norm_num

/-- Error message the stuck-job monitor passes to `fail_job`
(`quantization_worker.rs`, line 461). -/
def monitorFailMessage : String := "Job bloqué - timeout détection"

/-- Embedding of the per-job write of
`QuantizationWorker::check_stuck_jobs`: the monitor calls
`let _ = jobs_repo.fail_job(&job.id, ...)` — the result is discarded,
only the table effect remains. -/
def monitorFailJob (store : List Job) (jobId : Nat) (now : Nat) : List Job :=
  (failJobRun store jobId monitorFailMessage now).2

/-- Claim C7: if the stuck-job monitor issues its fail on a job that
has meanwhile reached Completed, `fail_job`'s terminal guard rejects
the call with `AlreadyCompleted`, the monitor discards the rejection,
and the jobs table — hence the Completed job and all its fields — is
unchanged. -/
theorem c7_monitor_never_overwrites_completed
    (store : List Job) (jobId : Nat) (job : Job) (now : Nat)
    (hfind : findJob store jobId = some job)
    (hdone : job.status = .completed) :
    monitorFailJob store jobId now = store ∧
    (failJobRun store jobId monitorFailMessage now).1 = .error .alreadyCompleted ∧
    findJob (monitorFailJob store jobId now) jobId = some job := by
  have hstore : failJobRun store jobId monitorFailMessage now =
      (.error .alreadyCompleted, store) := by
    simp only [failJobRun, hfind]
    rw [if_pos (Or.inl hdone)]
  refine ⟨?_, ?_, ?_⟩
  · simp [monitorFailJob, hstore]
  · simp [hstore]
  · simp [monitorFailJob, hstore, hfind]

/-- Witness for C7: on a table holding a Completed job, the monitor's
fail call leaves the table unchanged. -/
theorem c7_monitor_witness :
    monitorFailJob [jobCompletedEx] 1 9 = [jobCompletedEx] ∧
    (failJobRun [jobCompletedEx] 1 monitorFailMessage 9).1 =
      .error .alreadyCompleted ∧
    findJob (monitorFailJob [jobCompletedEx] 1 9) 1 = some jobCompletedEx :=
  c7_monitor_never_overwrites_completed [jobCompletedEx] 1 jobCompletedEx 9
    (by decide) rfl

/-- Claim C10: the reduction and compression computations are total and
never divide by zero: `calculate_reduction` returns 0 when the original
size is not positive or the quantized size is absent; `complete_job`
stores reduction 0 for original size 0; `compression_ratio` returns
`None` unless both sizes are present and the original is strictly
positive, and divides only in that case. -/
theorem c10_no_division_by_zero :
    (∀ j : Job, j.originalSizeBytes ≤ 0 → j.calculateReduction = 0) ∧
    (∀ j : Job, j.quantizedSizeBytes = none → j.calculateReduction = 0) ∧
    (∀ (store : List Job) (jobId : Nat) (job : Job) (q : Int) (url : String)
        (now : Nat), findJob store jobId = some job →
      job.status = .processing → job.originalSizeBytes = 0 →
      ∃ upd : Job,
        completeJobRun store jobId q url now = (.ok upd, setJob store upd) ∧
        upd.reductionPercent = some 0) ∧
    (∀ (o q : Option Int) (r : Rat), compressionRatioOf o q = some r →
      ∃ ov qv : Int, o = some ov ∧ q = some qv ∧ 0 < ov ∧
        r = (qv : Rat) / (ov : Rat)) ∧
    (∀ q : Option Int,
      compressionRatioOf (some 0) q = none ∧ compressionRatioOf none q = none) := by
  refine ⟨?_, ?_, ?_, ?_, ?_⟩
  · intro j hle
    have hnp : ¬ 0 < j.originalSizeBytes := not_lt.mpr hle
    cases hq : j.quantizedSizeBytes with
    | none => simp [Job.calculateReduction, hq]
    | some q => simp [Job.calculateReduction, hq, hnp]
  · intro j hnone
    simp [Job.calculateReduction, hnone]
  · intro store jobId job q url now hfind hproc hzero
    have hrej : ¬ (job.status = .completed ∨ job.status = .failed) := by
      rw [hproc]; decide
    have hnotpos : ¬ 0 < job.originalSizeBytes := by rw [hzero]; decide
    refine ⟨{ job with
        quantizedSizeBytes := some q
        reductionPercent := some (if 0 < job.originalSizeBytes then
          ((job.originalSizeBytes : Rat) - (q : Rat))
            / (job.originalSizeBytes : Rat) * 100 else 0)
        downloadUrl := some url, status := .completed, updatedAt := now },
      ?_, by simp [hnotpos]⟩
    simp only [completeJobRun, hfind]
    rw [if_neg hrej]
  · intro o q r h
    match o, q with
    | some ov, some qv =>
      by_cases hpos : 0 < ov
      · refine ⟨ov, qv, rfl, rfl, hpos, ?_⟩
        simp only [compressionRatioOf, if_pos hpos, Option.some.injEq] at h
        exact h.symm
      · simp [compressionRatioOf, hpos] at h
    | some ov, none => simp [compressionRatioOf] at h
    | none, _ => simp [compressionRatioOf] at h
  · intro q
    cases q with
    | none => exact ⟨rfl, rfl⟩
    | some qv => exact ⟨by simp [compressionRatioOf], rfl⟩

/-- Job with original size 0, used to exercise the zero guards. -/
def zeroSizeJob : Job := { smallJob with originalSizeBytes := 0 }

/-- Witness for C10: concrete evaluations of the three guarded
computations at zero/absent original size. -/
theorem c10_no_division_by_zero_witness :
    zeroSizeJob.calculateReduction = 0 ∧
    smallJob.calculateReduction = 0 ∧
    (∃ upd : Job,
      completeJobRun [zeroSizeJob] 1 2 "u" 5 =
        (.ok upd, setJob [zeroSizeJob] upd) ∧
      upd.reductionPercent = some 0) ∧
    compressionRatioOf (some 0) (some 5) = none :=
  ⟨c10_no_division_by_zero.1 zeroSizeJob (by decide),
   c10_no_division_by_zero.2.1 smallJob rfl,
   c10_no_division_by_zero.2.2.1 [zeroSizeJob] 1 zeroSizeJob 2 "u" 5
     (by decide) rfl rfl,
   (c10_no_division_by_zero.2.2.2.2 (some 5)).1⟩

/-- Priority queue from `services/queue.rs` (`JobQueue`): three Redis
lists keyed `queue:high` / `queue:normal` / `queue:low`.  `LPUSH`
prepends and `RPOP` removes the last element, so in each list the
newest entry is first and the oldest entry is last. -/
structure JobQueue where
  high : List Nat
  normal : List Nat
  low : List Nat
deriving DecidableEq

/-- The queue with all three lists empty. -/
def emptyQueue : JobQueue := ⟨[], [], []⟩

/-- Embedding of `JobQueue::enqueue` (`services/queue.rs`, lines
37-61): pick the list by priority (3 → high, 2 → normal, anything else
→ low) and `LPUSH` the job id.  There is no membership check: an id
already present is simply pushed again. -/
def enqueue (q : JobQueue) (jobId : Nat) (priority : Int) : JobQueue :=
  if priority = 3 then { q with high := jobId :: q.high }
  else if priority = 2 then { q with normal := jobId :: q.normal }
  else { q with low := jobId :: q.low }

/-- Redis `RPOP`: remove and return the last (oldest) element. -/
def rpop : List Nat → Option (Nat × List Nat)
  | [] => none
  | x :: xs =>
    match rpop xs with
    | none => some (x, [])
    | some (y, ys) => some (y, x :: ys)

/-- Embedding of `JobQueue::dequeue` (`services/queue.rs`, lines
64-88): try `RPOP` on high, then normal, then low; `None` when all
three lists are empty. -/
def dequeue (q : JobQueue) : Option Nat × JobQueue :=
  match rpop q.high with
  | some (x, rest) => (some x, { q with high := rest })
  | none =>
    match rpop q.normal with
    | some (x, rest) => (some x, { q with normal := rest })
    | none =>
      match rpop q.low with
      | some (x, rest) => (some x, { q with low := rest })
      | none => (none, q)

/-- Total number of copies of an id across the three tier lists. -/
def countQueue (q : JobQueue) (x : Nat) : Nat :=
  q.high.count x + q.normal.count x + q.low.count x

lemma rpop_spec (l : List Nat) (h : l ≠ []) :
    ∃ x rest, l = rest ++ [x] ∧ rpop l = some (x, rest) := by
  induction l with
  | nil => exact absurd rfl h
  | cons a as ih =>
    cases as with
    | nil => exact ⟨a, [], rfl, rfl⟩
    | cons b bs =>
      obtain ⟨x, rest, heq, hr⟩ := ih (by simp)
      refine ⟨x, a :: rest, by simp [heq], ?_⟩
      have hstep : rpop (a :: b :: bs) =
          match rpop (b :: bs) with
          | none => some (a, [])
          | some (y, ys) => some (y, a :: ys) := rfl
      rw [hstep, hr]

lemma rpop_eq_none {l : List Nat} : rpop l = none ↔ l = [] := by
  constructor
  · intro h
    by_contra hne
    obtain ⟨x, rest, _, hr⟩ := rpop_spec l hne
    rw [hr] at h
    cases h
  · intro h
    subst h
    rfl

lemma rpop_eq_some {l : List Nat} {x : Nat} {rest : List Nat}
    (h : rpop l = some (x, rest)) : l = rest ++ [x] := by
  have hne : l ≠ [] := by
    intro hnil
    subst hnil
    cases h
  obtain ⟨y, r, heq, hr⟩ := rpop_spec l hne
  rw [hr] at h
  simp only [Option.some.injEq, Prod.mk.injEq] at h
  rw [heq, h.1, h.2]

/-- Claim C4 (amended): `dequeue` removes and returns the oldest entry
of the highest non-empty tier (`None` exactly when all tiers are
empty, queue unchanged in that case); each returned entry is removed —
the returned id's copy count drops by one, so an id is returned at most
as many times as it was enqueued; and with one Starter-tier (priority
2) and one Pro-tier (priority 3) entry present, the Pro-tier id is
dequeued first.  (The original clause "never returns the same id twice
without an intervening enqueue" fails because duplicate enqueues are
possible, see `c4_counterexample`.) -/
theorem c4_dequeue_order :
    (∀ q : JobQueue,
      ((dequeue q).1 = none ↔ q.high = [] ∧ q.normal = [] ∧ q.low = []) ∧
      ((dequeue q).1 = none → (dequeue q).2 = q)) ∧
    (∀ q : JobQueue, q.high ≠ [] →
      ∃ x rest, q.high = rest ++ [x] ∧
        dequeue q = (some x, { q with high := rest })) ∧
    (∀ q : JobQueue, q.high = [] → q.normal ≠ [] →
      ∃ x rest, q.normal = rest ++ [x] ∧
        dequeue q = (some x, { q with normal := rest })) ∧
    (∀ q : JobQueue, q.high = [] → q.normal = [] → q.low ≠ [] →
      ∃ x rest, q.low = rest ++ [x] ∧
        dequeue q = (some x, { q with low := rest })) ∧
    (∀ (q q2 : JobQueue) (x : Nat), dequeue q = (some x, q2) →
      countQueue q2 x + 1 = countQueue q x) ∧
    (dequeue (enqueue (enqueue emptyQueue 100 2) 200 3)).1 = some 200 := by
  refine ⟨?_, ?_, ?_, ?_, ?_, by decide⟩
  · intro q
    constructor
    · constructor
      · intro h
        unfold dequeue at h
        cases hh : rpop q.high with
        | some p => rw [hh] at h; cases h
        | none =>
          rw [hh] at h
          cases hn : rpop q.normal with
          | some p => rw [hn] at h; cases h
          | none =>
            rw [hn] at h
            cases hl : rpop q.low with
            | some p => rw [hl] at h; cases h
            | none =>
              exact ⟨rpop_eq_none.mp hh, rpop_eq_none.mp hn, rpop_eq_none.mp hl⟩
      · rintro ⟨h1, h2, h3⟩
        simp [dequeue, h1, h2, h3, rpop]
    · intro h
      unfold dequeue at h ⊢
      cases hh : rpop q.high with
      | some p => rw [hh] at h; cases h
      | none =>
        rw [hh] at h
        cases hn : rpop q.normal with
        | some p => rw [hn] at h; cases h
        | none =>
          rw [hn] at h
          cases hl : rpop q.low with
          | some p => rw [hl] at h; cases h
          | none => rfl
  · intro q hne
    obtain ⟨x, rest, heq, hr⟩ := rpop_spec q.high hne
    exact ⟨x, rest, heq, by simp [dequeue, hr]⟩
  · intro q hhigh hne
    obtain ⟨x, rest, heq, hr⟩ := rpop_spec q.normal hne
    refine ⟨x, rest, heq, ?_⟩
    have hh : rpop q.high = none := rpop_eq_none.mpr hhigh
    simp [dequeue, hh, hr]
  · intro q hhigh hnormal hne
    obtain ⟨x, rest, heq, hr⟩ := rpop_spec q.low hne
    refine ⟨x, rest, heq, ?_⟩
    have hh : rpop q.high = none := rpop_eq_none.mpr hhigh
    have hn : rpop q.normal = none := rpop_eq_none.mpr hnormal
    simp [dequeue, hh, hn, hr]
  · intro q q2 x h
    unfold dequeue at h
    cases hh : rpop q.high with
    | some p =>
      obtain ⟨y, rest⟩ := p
      rw [hh] at h
      simp only [Prod.mk.injEq, Option.some.injEq] at h
      obtain ⟨hy, hq2⟩ := h
      subst hy
      have := rpop_eq_some hh
      rw [← hq2]
      simp [countQueue, this, List.count_append]
      omega
    | none =>
      rw [hh] at h
      have hhigh : q.high = [] := rpop_eq_none.mp hh
      cases hn : rpop q.normal with
      | some p =>
        obtain ⟨y, rest⟩ := p
        rw [hn] at h
        simp only [Prod.mk.injEq, Option.some.injEq] at h
        obtain ⟨hy, hq2⟩ := h
        subst hy
        have := rpop_eq_some hn
        rw [← hq2]
        simp [countQueue, this, List.count_append]
        omega
      | none =>
        rw [hn] at h
        cases hl : rpop q.low with
        | some p =>
          obtain ⟨y, rest⟩ := p
          rw [hl] at h
          simp only [Prod.mk.injEq, Option.some.injEq] at h
          obtain ⟨hy, hq2⟩ := h
          subst hy
          have := rpop_eq_some hl
          rw [← hq2]
          simp [countQueue, this, List.count_append]
          omega
        | none =>
          rw [hl] at h
          cases h

/-- Witness for C4: on the queue with high = [5, 4] (4 enqueued first)
and normal = [9], dequeue returns 4 — the oldest entry of the highest
non-empty tier. -/
theorem c4_dequeue_order_witness :
    ∃ x rest, (⟨[5, 4], [9], []⟩ : JobQueue).high = rest ++ [x] ∧
      dequeue ⟨[5, 4], [9], []⟩ =
        (some x, { (⟨[5, 4], [9], []⟩ : JobQueue) with high := rest }) :=
  c4_dequeue_order.2.1 ⟨[5, 4], [9], []⟩ (by decide)

/-- Counterexample for C4 as stated: after enqueuing id 7 twice at
priority 3 (`enqueue` performs no duplicate check), two consecutive
dequeues both return 7 with no intervening enqueue — "never returns
the same id twice without an intervening enqueue" is false. -/
theorem c4_counterexample :
    (dequeue (enqueue (enqueue emptyQueue 7 3) 7 3)).1 = some 7 ∧
    (dequeue (dequeue (enqueue (enqueue emptyQueue 7 3) 7 3)).2).1 = some 7 := by
  decide

/-- Claim C8 (amended): `enqueue` always inserts: it `LPUSH`es the id
onto the tier list selected by the priority (3 → high, 2 → normal,
otherwise low) with no membership check, so re-enqueuing an
already-present id adds a duplicate — the id's copy count always grows
by one. -/
theorem c8_enqueue_always_inserts (q : JobQueue) (jobId : Nat) (priority : Int) :
    (priority = 3 → enqueue q jobId priority = { q with high := jobId :: q.high }) ∧
    (priority = 2 → enqueue q jobId priority = { q with normal := jobId :: q.normal }) ∧
    (priority ≠ 3 → priority ≠ 2 →
      enqueue q jobId priority = { q with low := jobId :: q.low }) ∧
    countQueue (enqueue q jobId priority) jobId = countQueue q jobId + 1 := by
  refine ⟨?_, ?_, ?_, ?_⟩
  · intro h3
    simp [enqueue, h3]
  · intro h2
    have : (2 : Int) ≠ 3 := by decide
    simp [enqueue, h2, this]
  · intro h3 h2
    simp [enqueue, h3, h2]
  · by_cases h3 : priority = 3
    · simp [enqueue, h3, countQueue, List.count_cons]
      omega
    · by_cases h2 : priority = 2
      · simp [enqueue, h3, h2, countQueue, List.count_cons]
        omega
      · simp [enqueue, h3, h2, countQueue, List.count_cons]
        omega

/-- Witness for C8: enqueuing id 7 at priority 3 onto a queue already
holding 7 in the high tier prepends a second copy and raises the count
from 1 to 2. -/
theorem c8_enqueue_always_inserts_witness :
    enqueue ⟨[7], [], []⟩ 7 3 = { (⟨[7], [], []⟩ : JobQueue) with high := 7 :: [7] } ∧
    countQueue (enqueue ⟨[7], [], []⟩ 7 3) 7 = countQueue ⟨[7], [], []⟩ 7 + 1 :=
  ⟨(c8_enqueue_always_inserts ⟨[7], [], []⟩ 7 3).1 rfl,
   (c8_enqueue_always_inserts ⟨[7], [], []⟩ 7 3).2.2.2⟩

/-- Counterexample for C8 as stated: re-enqueuing an id already present
is not a no-op — the queue differs, and the dequeue sequence differs
(the duplicate makes a second dequeue of 7 possible where the
single-copy queue is already empty). -/
theorem c8_counterexample :
    enqueue (enqueue emptyQueue 7 3) 7 3 ≠ enqueue emptyQueue 7 3 ∧
    (dequeue (dequeue (enqueue (enqueue emptyQueue 7 3) 7 3)).2).1 = some 7 ∧
    (dequeue (dequeue (enqueue emptyQueue 7 3)).2).1 = none := by
  decide

/-- Subscription row restricted to the credit fields
(`infrastructure/database/subscriptions.rs`, `struct Subscription`). -/
structure Subscription where
  monthlyCredits : Int
  creditsUsed : Int
deriving DecidableEq

/-- Embedding of `SubscriptionsRepository::has_credits_available`
(`subscriptions.rs`, lines 290-293): `credits_used < monthly_credits`
— a boolean, not a comparison against any job cost. -/
def hasCreditsAvailable (s : Subscription) : Bool :=
  s.creditsUsed < s.monthlyCredits

/-- Credit error of `SubscriptionsRepository::consume_credit`. -/
inductive CreditError
  | noCreditsAvailable
deriving DecidableEq

/-- Embedding of `SubscriptionsRepository::consume_credit`
(`subscriptions.rs`, lines 254-280): reject when
`credits_used >= monthly_credits`, otherwise increment `credits_used`
by exactly one — the amount is fixed, no cost parameter exists. -/
def consumeCredit (s : Subscription) : Except CreditError Subscription :=
  if s.monthlyCredits ≤ s.creditsUsed then .error .noCreditsAvailable
  else .ok { s with creditsUsed := s.creditsUsed + 1 }

/-- Errors surfaced by the submission path. -/
inductive ApiError
  | validationError
  | paymentRequired
  | noCreditsAvailable
  | insufficientCredits
deriving DecidableEq

/-- Request body of `POST /jobs/create` (`api/routes/jobs.rs`,
`CreateJobRequest`). -/
structure CreateJobRequest where
  model_name : String
  file_name : String
  original_size_bytes : Nat
  quantization_method : String
deriving DecidableEq

/-- The request validator (`api/routes/jobs.rs`, lines 22-32 and
79-88): non-empty names, size at least 1, and the method in the
supported set.  The source lowercases the method string before the set
check (`method.to_lowercase()`); the embedding covers the lowercase
spellings, which are the ones the conversion at lines 119-125 accepts. -/
def validateCreateJobRequest (r : CreateJobRequest) : Bool :=
  1 ≤ r.model_name.length && 1 ≤ r.file_name.length &&
    1 ≤ r.original_size_bytes &&
    (r.quantization_method == "int8" || r.quantization_method == "int4" ||
     r.quantization_method == "gptq" || r.quantization_method == "awq")

/-- The cost the route computes (`api/routes/jobs.rs`, lines 106-109):
1 credit for int8, 2 otherwise.  The result is bound to `job_cost` and
never used afterwards. -/
def routeJobCost (method : String) : Int :=
  if method = "int8" then 1 else 2

/-- Method-string conversion (`api/routes/jobs.rs`, lines 119-125). -/
def parseQuantizationMethod (method : String) : QuantizationMethod :=
  if method = "int8" then .int8
  else if method = "int4" then .int4
  else if method = "gptq" then .gptq
  else if method = "awq" then .awq
  else .int8

/-- Embedding of the `create_job` route (`api/routes/jobs.rs`, lines
91-174).  Values the HTTP layer or database supply nondeterministically
(user id, generated job id, download token, clock) are explicit
parameters.  The route validates the request, checks
`has_credits_available` (the computed `job_cost` is never compared
against the remaining credits), inserts the Job row with status Queued
(`JobsRepository::create`), then calls `consume_credit`, which takes
exactly one credit.  The jobs table is returned alongside the result so
that "no row created" is explicit. -/
def createJobRoute (sub : Subscription) (store : List Job)
    (req : CreateJobRequest) (userId jobId : Nat) (token : String)
    (now : Nat) : Except ApiError (Job × Subscription) × List Job :=
  if ¬ validateCreateJobRequest req then (.error .validationError, store)
  else
    let _job_cost := routeJobCost req.quantization_method
    if ¬ hasCreditsAvailable sub then (.error .paymentRequired, store)
    else
      let job : Job :=
        { id := jobId, userId := userId, modelName := req.model_name
          originalSizeBytes := (req.original_size_bytes : Int)
          quantizedSizeBytes := none
          quantizationMethod := parseQuantizationMethod req.quantization_method
          status := .queued, errorMessage := none, reductionPercent := none
          downloadToken := token, downloadUrl := none
          createdAt := now, updatedAt := now }
      let store2 := store ++ [job]
      match consumeCredit sub with
      | .error _ => (.error .noCreditsAvailable, store2)
      | .ok sub2 => (.ok (job, sub2), store2)

/-- Quantization methods of `models/job.rs` (a distinct enum from the
domain one: Int8, Gptq, Awq, GgufQ4_0, GgufQ5_0). -/
inductive MQuantizationMethod
  | int8
  | gptq
  | awq
  | ggufQ4_0
  | ggufQ5_0
deriving DecidableEq

/-- Base cost by method (`core/job_service.rs`, lines 246-251). -/
def baseCost : MQuantizationMethod → Int
  | .int8 => 1
  | .gptq => 2
  | .awq => 2
  | .ggufQ4_0 => 1
  | .ggufQ5_0 => 1

/-- Size factor by parameter count in billions (`core/job_service.rs`,
lines 254-258); the f64 threshold comparison is exact on rationals. -/
def sizeFactor (parameter_count : Option Rat) : Int :=
  match parameter_count with
  | some p => if 70 < p then 3 else if 13 < p then 2 else 1
  | none => 1

/-- Embedding of `JobService::calculate_job_cost` (`core/job_service.rs`,
lines 237-269), with the user's credit balance passed in for the
`db.get_user_credits` read: the cost is `base * size_factor` — a pure
function of method and size — and `InsufficientCredits` is returned
when the balance is below it. -/
def calculateJobCost (method : MQuantizationMethod)
    (parameter_count : Option Rat) (credits : Int) : Except ApiError Int :=
  let total := baseCost method * sizeFactor parameter_count
  if credits < total then .error .insufficientCredits else .ok total

/-- Claim C2 (amended): the submission route gates on
`has_credits_available` — a boolean "at least one credit left"
(`credits_used < monthly_credits`) — not on `available >= cost`: when
no credit is available it returns the payment error synchronously and
no Job row is created (Scenario B holds); otherwise a Job row is
created in Queued and exactly ONE credit is consumed, regardless of the
job's cost.  The service-level `calculate_job_cost` is a pure function
`base(method) * sizeFactor(parameterCount)` and errors with
`InsufficientCredits` exactly when the balance is below that cost. -/
theorem c2_credit_gate :
    (∀ (sub : Subscription) (store : List Job) (req : CreateJobRequest)
        (userId jobId : Nat) (token : String) (now : Nat),
      validateCreateJobRequest req = true →
      (hasCreditsAvailable sub = false →
        createJobRoute sub store req userId jobId token now =
          (.error .paymentRequired, store)) ∧
      (hasCreditsAvailable sub = true →
        ∃ job : Job,
          createJobRoute sub store req userId jobId token now =
            (.ok (job, { sub with creditsUsed := sub.creditsUsed + 1 }),
             store ++ [job]) ∧
          job.status = .queued)) ∧
    (∀ (method : MQuantizationMethod) (pc : Option Rat) (credits : Int),
      (calculateJobCost method pc credits = .error .insufficientCredits ↔
        credits < baseCost method * sizeFactor pc) ∧
      (¬ credits < baseCost method * sizeFactor pc →
        calculateJobCost method pc credits =
          .ok (baseCost method * sizeFactor pc))) := by
  constructor
  · intro sub store req userId jobId token now hval
    constructor
    · intro hno
      simp [createJobRoute, hval, hno]
    · intro hyes
      have hlt : sub.creditsUsed < sub.monthlyCredits := by
        simpa [hasCreditsAvailable] using hyes
      have hnotle : ¬ sub.monthlyCredits ≤ sub.creditsUsed := not_le.mpr hlt
      refine ⟨{ id := jobId, userId := userId, modelName := req.model_name,
                originalSizeBytes := (req.original_size_bytes : Int),
                quantizedSizeBytes := none,
                quantizationMethod := parseQuantizationMethod req.quantization_method,
                status := .queued, errorMessage := none, reductionPercent := none,
                downloadToken := token, downloadUrl := none,
                createdAt := now, updatedAt := now }, ?_, rfl⟩
      simp [createJobRoute, hval, hyes, consumeCredit, hnotle]
  · intro method pc credits
    constructor
    · constructor
      · intro h
        by_contra hge
        simp [calculateJobCost, hge] at h
      · intro h
        simp [calculateJobCost, h]
    · intro h
      simp [calculateJobCost, h]

/-- Subscription with exactly one credit left (10 monthly, 9 used). -/
def subOneCredit : Subscription := ⟨10, 9⟩

/-- An int4 submission request (cost 2 by the route's own table). -/
def reqInt4 : CreateJobRequest := ⟨"m", "f.onnx", 1000, "int4"⟩

/-- Subscription with zero credits available (Scenario B). -/
def subNoCredit : Subscription := ⟨1, 1⟩

/-- The job row the route creates for `reqInt4`. -/
def jobInt4Created : Job :=
  { id := 1, userId := 2, modelName := "m", originalSizeBytes := 1000
    quantizedSizeBytes := none, quantizationMethod := .int4
    status := .queued, errorMessage := none, reductionPercent := none
    downloadToken := "t", downloadUrl := none, createdAt := 0, updatedAt := 0 }

/-- Witness for C2: with zero credits available the route rejects with
the payment error and creates no row; with one credit available it
creates the Queued row and consumes one credit. -/
theorem c2_credit_gate_witness :
    createJobRoute subNoCredit [] reqInt4 2 1 "t" 0 =
      (.error .paymentRequired, []) ∧
    (∃ job : Job,
      createJobRoute subOneCredit [] reqInt4 2 1 "t" 0 =
        (.ok (job, { subOneCredit with
          creditsUsed := subOneCredit.creditsUsed + 1 }), [] ++ [job]) ∧
      job.status = .queued) ∧
    calculateJobCost .int8 (some 20) 1 = .error .insufficientCredits :=
  ⟨(c2_credit_gate.1 subNoCredit [] reqInt4 2 1 "t" 0 (by decide)).1 (by decide),
   (c2_credit_gate.1 subOneCredit [] reqInt4 2 1 "t" 0 (by decide)).2 (by decide),
   ((c2_credit_gate.2 .int8 (some 20) 1).1).mpr (by norm_num [baseCost, sizeFactor])⟩

/-- Counterexample for C2 as stated: the owner has 1 available credit
and the int4 job costs 2 — the claim demands a synchronous
`InsufficientCredits` with no Job row, but the route creates the Job in
Queued and consumes exactly one credit (the computed `job_cost` is
never compared to the balance). -/
theorem c2_counterexample :
    routeJobCost "int4" = 2 ∧
    subOneCredit.monthlyCredits - subOneCredit.creditsUsed = 1 ∧
    createJobRoute subOneCredit [] reqInt4 2 1 "t" 0 =
      (.ok (jobInt4Created, ⟨10, 10⟩), [jobInt4Created]) := by
  refine ⟨by decide, by decide, ?_⟩
  decide

/-- Worker configuration (`workers/quantization_worker.rs`,
`WorkerConfig`, lines 32-46). -/
structure WorkerConfig where
  max_concurrent_jobs : Nat
  poll_interval_seconds : Nat
  job_timeout_minutes : Nat
  max_retries : Nat
  temp_dir : String
  debug_mode : Bool
deriving DecidableEq

/-- `WorkerConfig::default` (`quantization_worker.rs`, lines 48-59). -/
def WorkerConfig.default : WorkerConfig :=
  { max_concurrent_jobs := 2, poll_interval_seconds := 5
    job_timeout_minutes := 120, max_retries := 3
    temp_dir := "/tmp/quant_worker", debug_mode := false }

/-- Stuck-job cutoff of `QuantizationWorker::check_stuck_jobs`
(`quantization_worker.rs`, line 434):
`cutoff_time = Utc::now() - Duration::minutes(30)` — a Processing job
whose `updated_at` is older than 30 minutes is force-failed. -/
def stuckJobCutoffMinutes : Nat := 30

/-- Claim C6 evidence (code bug): the claim requires the monitor's
cutoff to strictly exceed the worker's job timeout plus a margin, but
in the source the cutoff is 30 minutes while the default job timeout is
120 minutes — the cutoff is strictly BELOW the timeout, so a healthy
worker 31 minutes into its 120-minute budget (no intermediate
`updated_at` refresh exists in `process_single_job`) is force-failed. -/
theorem c6_cutoff_below_job_timeout :
    stuckJobCutoffMinutes = 30 ∧
    WorkerConfig.default.job_timeout_minutes = 120 ∧
    stuckJobCutoffMinutes < WorkerConfig.default.job_timeout_minutes ∧
    ¬ (WorkerConfig.default.job_timeout_minutes < stuckJobCutoffMinutes) := by
  decide

/-- State of the worker pool (`workers/quantization_worker.rs`,
`QuantizationWorker`): the jobs table, the `active_jobs` HashSet, and
`holding` — the set of job ids whose spawned task currently holds one
of the `Semaphore::new(max_concurrent_jobs)` permits. -/
structure WorkerPoolState where
  store : List Job
  active : Finset Nat
  holding : Finset Nat

/-- Outcome of one spawned job task. -/
inductive TaskOutcome
  | success (quantizedSizeBytes : Int) (downloadUrl : String)
  | engineError
  | timeout

/-- Store effect of the task's terminal branch
(`poll_and_process_jobs`, lines 182-212, and `process_single_job`): on
success the pipeline calls `complete_job`; on an engine or storage
error the task only logs (`Err(e)` branch — no status write); on
timeout it calls `fail_job` with the expiry message. -/
def applyOutcome (store : List Job) (jobId : Nat) (outcome : TaskOutcome)
    (cfg : WorkerConfig) (now : Nat) : List Job :=
  match outcome with
  | .success q url => (completeJobRun store jobId q url now).2
  | .engineError => store
  | .timeout =>
    (failJobRun store jobId
      ("Job expiré après " ++ toString cfg.job_timeout_minutes ++ " minutes")
      now).2

/-- One step of the worker pool, mirroring the program order of
`poll_and_process_jobs` (lines 138-216): a queued job id is first
inserted into `active_jobs`; a permit of the semaphore created with
`max_concurrent_jobs` is then acquired, which is only possible while
fewer than `max_concurrent_jobs` permits are held; the spawned task
marks the job Processing (`update_status`); and when the task finishes
— whatever the outcome — it removes the id from `active_jobs` and
drops its permit. -/
inductive WorkerStep (cfg : WorkerConfig) : WorkerPoolState → WorkerPoolState → Prop
  | claimJob (s : WorkerPoolState) (jobId : Nat) (job : Job)
      (hfind : findJob s.store jobId = some job) (hq : job.status = .queued)
      (hnew : jobId ∉ s.active) :
      WorkerStep cfg s ⟨s.store, insert jobId s.active, s.holding⟩
  | acquirePermit (s : WorkerPoolState) (jobId : Nat)
      (hact : jobId ∈ s.active) (hfree : jobId ∉ s.holding)
      (hcap : s.holding.card < cfg.max_concurrent_jobs) :
      WorkerStep cfg s ⟨s.store, s.active, insert jobId s.holding⟩
  | beginProcessing (s : WorkerPoolState) (jobId : Nat) (now : Nat)
      (hheld : jobId ∈ s.holding) :
      WorkerStep cfg s
        ⟨(updateStatusRun s.store jobId .processing now).2, s.active, s.holding⟩
  | finishTask (s : WorkerPoolState) (jobId : Nat) (outcome : TaskOutcome)
      (now : Nat) (hheld : jobId ∈ s.holding) :
      WorkerStep cfg s
        ⟨applyOutcome s.store jobId outcome cfg now,
         s.active.erase jobId, s.holding.erase jobId⟩

/-- Worker states reachable from startup (`QuantizationWorker::new`:
`active_jobs` empty, all permits free) over any arrival pattern in the
jobs table. -/
inductive WorkerReachable (cfg : WorkerConfig) : WorkerPoolState → Prop
  | init (store : List Job) : WorkerReachable cfg ⟨store, ∅, ∅⟩
  | step {s t : WorkerPoolState} :
      WorkerReachable cfg s → WorkerStep cfg s t → WorkerReachable cfg t

/-- State of `JobService` (`core/job_service.rs`): its queue and its
`active_jobs: RwLock<Vec<Uuid>>`. -/
structure JobServiceState where
  queue : JobQueue
  active : List Nat
deriving DecidableEq

/-- Embedding of `JobService::process_next_job` (`core/job_service.rs`,
lines 97-125): return immediately when the active count has reached
`max_concurrent_jobs`; otherwise dequeue, and if an id arrives push it
onto `active_jobs` and spawn its task (the started id is returned). -/
def processNextJob (maxConcurrentJobs : Nat) (s : JobServiceState) :
    JobServiceState × Option Nat :=
  if maxConcurrentJobs ≤ s.active.length then (s, none)
  else
    match dequeue s.queue with
    | (none, q2) => ({ s with queue := q2 }, none)
    | (some jobId, q2) => (⟨q2, s.active ++ [jobId]⟩, some jobId)

/-- Claim C3: the number of jobs concurrently driven by the worker pool
never exceeds the configured bound — in every reachable worker state at
most `max_concurrent_jobs` permits are held (and by construction of
`WorkerStep` a job is marked Processing only by a task holding a
permit); on the service path, `process_next_job` starts no job while
the active count has reached `max_concurrent_jobs`. -/
theorem c3_concurrency_bounded :
    (∀ (cfg : WorkerConfig) (s : WorkerPoolState),
      WorkerReachable cfg s → s.holding.card ≤ cfg.max_concurrent_jobs) ∧
    (∀ (maxConcurrentJobs : Nat) (s : JobServiceState),
      maxConcurrentJobs ≤ s.active.length →
      processNextJob maxConcurrentJobs s = (s, none)) := by
  constructor
  · intro cfg s h
    induction h with
    | init store => simp
    | step hr hstep ih =>
      cases hstep with
      | claimJob jobId job hfind hq hnew => exact ih
      | acquirePermit jobId hact hfree hcap =>
        exact le_trans (Finset.card_insert_le _ _) hcap
      | beginProcessing jobId now hheld => exact ih
      | finishTask jobId outcome now hheld =>
        exact le_trans (Finset.card_erase_le) ih
  · intro m s h
    simp [processNextJob, h]

/-- A queued job used to drive the worker model. -/
def jobQueuedEx : Job := { smallJob with status := .queued }

/-- Witness for C3: the concrete state reached by claiming job 1 and
acquiring a permit holds one permit, within the default bound of 2;
and a service whose active list is already at the bound 1 starts
nothing. -/
theorem c3_concurrency_bounded_witness :
    (⟨[jobQueuedEx], insert 1 ∅, insert 1 ∅⟩ : WorkerPoolState).holding.card ≤
      WorkerConfig.default.max_concurrent_jobs ∧
    processNextJob 1 ⟨emptyQueue, [5]⟩ = (⟨emptyQueue, [5]⟩, none) :=
  ⟨c3_concurrency_bounded.1 WorkerConfig.default _
      (WorkerReachable.step
        (WorkerReachable.step (WorkerReachable.init [jobQueuedEx])
          (WorkerStep.claimJob ⟨[jobQueuedEx], ∅, ∅⟩ 1 jobQueuedEx
            (by decide) rfl (by decide)))
        (WorkerStep.acquirePermit ⟨[jobQueuedEx], insert 1 ∅, ∅⟩ 1
          (by simp) (by decide) (by decide))),
   c3_concurrency_bounded.2 1 ⟨emptyQueue, [5]⟩ (by decide)⟩

/-- `impl Clone for JobService` (`core/job_service.rs`, lines 290-301):
the clone's `active_jobs` field is `RwLock::new(Vec::new())` — a fresh
empty list sharing nothing with the original's. -/
def cloneActiveJobs (_original : List Nat) : List Nat := []

/-- The tail of the task spawned by `process_next_job` (lines 114-122):
`self_clone.active_jobs.write().await.retain(|&id| id != job_id)` runs
on the clone produced by `self.clone()`.  Returns the original
service's list (untouched by the retain) and the clone's list after the
retain. -/
def serviceTaskCleanup (originalActive : List Nat) (jobId : Nat) :
    List Nat × List Nat :=
  let cloneActive := cloneActiveJobs originalActive
  (originalActive, cloneActive.filter (fun id => id != jobId))

/-- `process_next_job` followed by the completion of the task it
spawned: the service's `active_jobs` afterwards is the first component
of `serviceTaskCleanup`. -/
def processNextJobThenTaskDone (maxConcurrentJobs : Nat)
    (s : JobServiceState) : JobServiceState :=
  match processNextJob maxConcurrentJobs s with
  | (s2, none) => s2
  | (s2, some jobId) => { s2 with active := (serviceTaskCleanup s2.active jobId).1 }

/-- Claim C9 evidence (code bug): the claim says that after the task
spawned by `process_next_job` finishes, the id is no longer in the
`active_jobs` collection whose length gates admission.  In the source,
the task's `retain` runs on a clone whose `Clone` impl created a fresh
empty `active_jobs` list, so job 42 — pushed by `process_next_job` —
is still in the service's gating list after its task has finished,
while the retain emptied only the clone's (already empty) list. -/
theorem c9_active_jobs_leak :
    processNextJob 2 ⟨enqueue emptyQueue 42 3, []⟩ =
      (⟨emptyQueue, [42]⟩, some 42) ∧
    processNextJobThenTaskDone 2 ⟨enqueue emptyQueue 42 3, []⟩ =
      ⟨emptyQueue, [42]⟩ ∧
    42 ∈ (processNextJobThenTaskDone 2 ⟨enqueue emptyQueue 42 3, []⟩).active ∧
    serviceTaskCleanup [42] 42 = ([42], []) := by
  decide

end QuantPlatform
